import Mathlib

/-
Verification of the benchmark-harness repository (src/main.py, src/jsonLoader.py).

The Python code is shallowly embedded:
  * Python `str.strip()` / `str.replace(pat, rep)` become `pyStrip` / `pyReplace`
    (the latter is fuel-indexed with fuel = input length, so that every
    definition is structurally recursive and kernel-evaluable).
  * `validate_solution` (main.py lines 29-34) and the fence-cleaning
    expression (main.py lines 94-95, `clean_code`) are transliterated.
  * The per-problem validation decision (main.py lines 137-162) is `classify`.
  * The try/except structure around persistence + subprocess execution
    (main.py lines 104-172) is `tryBlock` / `handlersApplied` / `problemBody`,
    driven by an abstract `ExecEvent` describing what the outside world
    (filesystem, child process) did.
  * The retry loop (main.py lines 62-91) is `retryGo`; the whole per-problem
    pipeline is `runProblem`; the orchestration loop over all problems with
    the inter-problem sleep (main.py lines 58-180) is `runAll`; argv handling
    plus the loader's invalid-directory behaviour (main.py lines 39-49,
    jsonLoader.py lines 20-22) is `mainRun`.
Delays are tracked as accumulated sleep time in seconds, so the source
constants 30 (retry), 20 (inter-problem) and 10 (timeout) appear explicitly.
-/

namespace Interview

/-- The whitespace characters stripped by Python `str.strip()` (ASCII range;
exotic Unicode whitespace is not modelled). -/
def isPySpace (c : Char) : Bool :=
  c == ' ' || c == '\t' || c == '\n' || c == '\r' || c == '\x0b' || c == '\x0c'

/-- List-level Python `str.strip()`: drop whitespace from both ends. -/
def pyStripList (l : List Char) : List Char :=
  ((l.dropWhile isPySpace).reverse.dropWhile isPySpace).reverse

/-- Python `s.strip()`. -/
def pyStrip (s : String) : String :=
  String.mk (pyStripList s.toList)

/-- One left-to-right scan of Python `str.replace`: at each position, if the
(nonempty) pattern `p :: ps` starts here, emit `rep` and continue after the
match, else emit the character and move one position.  `fuel` only bounds the
recursion; `fuel = l.length` always suffices (each step consumes at least one
character). -/
def pyRepAux (p : Char) (ps rep : List Char) : Nat → List Char → List Char
  | 0, l => l
  | _ + 1, [] => []
  | fuel + 1, c :: cs =>
    if (p :: ps).isPrefixOf (c :: cs) then
      rep ++ pyRepAux p ps rep fuel (cs.drop ps.length)
    else
      c :: pyRepAux p ps rep fuel cs

/-- Python `s.replace(pat, rep)` for nonempty `pat` (the empty-pattern case,
which Python treats specially, never occurs in this program). -/
def pyReplace (s pat rep : String) : String :=
  match pat.toList with
  | [] => s
  | p :: ps => String.mk (pyRepAux p ps rep.toList s.toList.length s.toList)

/-- main.py lines 29-34: compare actual and expected output after stripping
leading/trailing whitespace from each. -/
def validate_solution (actual_output expected_output : String) : Bool :=
  pyStrip actual_output == pyStrip expected_output

/-- main.py lines 94-95:
`code_response.strip().replace("```python", "").replace("```", "").strip()`. -/
def clean_code (code_response : String) : String :=
  pyStrip (pyReplace (pyReplace (pyStrip code_response) "```python" "") "```" "")

/-- The terminal per-problem outcomes the harness can record: the four
validation-stage verdicts (main.py lines 141-162) plus the skip reasons
produced by the retry loop and the exception handlers (lines 86-91, 165-172). -/
inductive Outcome
  | PASS
  | FAIL_MISMATCH
  | FAIL_RUNTIME_ERROR
  | SKIPPED_NO_EXPECTED
  | SKIPPED_EXHAUSTED
  | SKIPPED_PERSISTENCE
  | TIMED_OUT
  | SKIPPED_UNEXPECTED
  deriving DecidableEq

/-- main.py lines 137-162: stdout and stderr are stripped; non-empty stderr
means a runtime-error verdict, otherwise the (stripped) stdout is validated
against `test_output` when present and skipped when absent. -/
def classify (stdoutRaw stderrRaw : String) (expected : Option String) : Outcome :=
  if pyStrip stderrRaw ≠ "" then
    Outcome.FAIL_RUNTIME_ERROR
  else
    match expected with
    | some e =>
      if validate_solution (pyStrip stdoutRaw) e then Outcome.PASS
      else Outcome.FAIL_MISMATCH
    | none => Outcome.SKIPPED_NO_EXPECTED

/-- What the outside world did during one problem's try-block (main.py lines
104-134): the writing of the solution file and the subprocess run either
completed (with captured stdout/stderr), or raised an `IOError` while
writing, or raised `subprocess.TimeoutExpired` (which carries any partial
output — the handler at line 167 ignores it), or raised some other
exception (e.g. a process-spawn failure). -/
inductive ExecEvent
  | completed (stdoutRaw stderrRaw : String)
  | ioError
  | timeoutExpired (partOut : String)
  | otherExc
  deriving DecidableEq

/-- The exceptions distinguished by the handlers at main.py lines 165-172. -/
inductive PyExc
  | ioError
  | timeoutExpired (partOut : String)
  | other
  deriving DecidableEq

/-- The try-block (main.py lines 104-163): either reaches the validation
logic and produces its verdict, or raises. -/
def tryBlock (ev : ExecEvent) (expected : Option String) : Except PyExc Outcome :=
  match ev with
  | ExecEvent.completed out err => Except.ok (classify out err expected)
  | ExecEvent.ioError => Except.error PyExc.ioError
  | ExecEvent.timeoutExpired po => Except.error (PyExc.timeoutExpired po)
  | ExecEvent.otherExc => Except.error PyExc.other

/-- The except-clauses (main.py lines 165-172): every exception class raised
by the try-block is converted into a recorded outcome; nothing re-raises. -/
def handlersApplied (r : Except PyExc Outcome) : Except PyExc Outcome :=
  match r with
  | Except.ok o => Except.ok o
  | Except.error PyExc.ioError => Except.ok Outcome.SKIPPED_PERSISTENCE
  | Except.error (PyExc.timeoutExpired _) => Except.ok Outcome.TIMED_OUT
  | Except.error PyExc.other => Except.ok Outcome.SKIPPED_UNEXPECTED

/-- The net effect of the try/except block for one problem. -/
def problemBody (ev : ExecEvent) (expected : Option String) : Outcome :=
  match ev with
  | ExecEvent.completed out err => classify out err expected
  | ExecEvent.ioError => Outcome.SKIPPED_PERSISTENCE
  | ExecEvent.timeoutExpired _ => Outcome.TIMED_OUT
  | ExecEvent.otherExc => Outcome.SKIPPED_UNEXPECTED

/-- `test_input` as found in a problem record: a scalar or a list of scalars
(already coerced to strings, as `str(...)` does at main.py lines 121-124). -/
inductive TestInput
  | scalar (s : String)
  | listOf (xs : List String)
  deriving DecidableEq

/-- main.py lines 115-124: build the stdin payload from `test_input`. -/
def input_data : Option TestInput → Option String
  | none => none
  | some (TestInput.scalar s) => some s
  | some (TestInput.listOf xs) => some (String.intercalate "\n" xs)

/-- A problem record as consumed by the orchestrator (`query` via
`problem.get("query", ...)`, `test_input`, `test_output` with `test_output`
already coerced to a string as `str(expected_output)` does at line 159). -/
structure Problem where
  query : Option String
  test_input : Option TestInput
  test_output : Option String
  deriving DecidableEq

/-- The external world's behaviour for one problem: what the generation
service returns on each attempt (`none` = the call raised), and what
persistence + execution do if generation succeeds. -/
structure Env where
  gen : Nat → Option String
  exec : ExecEvent

/-- main.py line 62. -/
def max_retries : Nat := 3

/-- main.py line 63: seconds slept between two generation attempts. -/
def retry_delay : Nat := 30

/-- main.py line 179: seconds slept between two problems. -/
def inter_problem_delay : Nat := 20

/-- main.py line 133: wall-clock timeout (seconds) for the child process. -/
def exec_timeout : Nat := 10

/-- The retry loop (main.py lines 66-87).  `attempt` is the 0-based index of
the current attempt, `n` counts the attempts still allowed (including this
one).  Returns `(code_response, attempts made, seconds slept)`; the sleep of
`retry_delay` happens only when the current attempt failed and was not the
last one (line 82). -/
def retryGo (gen : Nat → Option String) : Nat → Nat → Option String × Nat × Nat
  | _, 0 => (none, 0, 0)
  | attempt, n + 1 =>
    match gen attempt with
    | some r => (some r, 1, 0)
    | none =>
      if n = 0 then
        (none, 1, 0)
      else
        ((retryGo gen (attempt + 1) n).1,
         (retryGo gen (attempt + 1) n).2.1 + 1,
         (retryGo gen (attempt + 1) n).2.2 + retry_delay)

/-- The whole retry controller for one problem: up to `max_retries` attempts
starting at attempt 0. -/
def runRetries (gen : Nat → Option String) : Option String × Nat × Nat :=
  retryGo gen 0 max_retries

/-- Everything recorded about one problem's trip through the pipeline. -/
structure ProblemResult where
  outcome : Outcome
  generated : Bool
  attempts : Nat
  retrySleepSecs : Nat
  source : Option String
  stdinData : Option String
  deriving DecidableEq

/-- One iteration of the orchestrator loop body (main.py lines 58-172):
retry the generation; on exhaustion `continue` (line 91) — no extraction,
no persistence, no execution, no validation; otherwise clean the code,
persist it and run it (the try/except block). -/
def runProblem (p : Problem) (env : Env) : ProblemResult :=
  match runRetries env.gen with
  | (none, att, slept) =>
    ⟨Outcome.SKIPPED_EXHAUSTED, false, att, slept, none, none⟩
  | (some resp, att, slept) =>
    ⟨problemBody env.exec p.test_output, true, att, slept,
     some (clean_code resp), input_data p.test_input⟩

/-- The orchestrator loop (main.py lines 58-180).  Returns the list of
per-problem results and the total seconds of inter-problem sleep.  The
sleep at line 179 runs only when the problem is not the last one AND the
loop body was not cut short by the `continue` at line 91 (i.e. generation
succeeded). -/
def runAll : List (Problem × Env) → List ProblemResult × Nat
  | [] => ([], 0)
  | pe :: rest =>
    (runProblem pe.1 pe.2 :: (runAll rest).1,
     (if rest.isEmpty then 0
      else if (runProblem pe.1 pe.2).generated then inter_problem_delay else 0)
       + (runAll rest).2)

/-- How a run of the whole script ends. -/
inductive ExitStatus
  | success
  | failure (code : Nat)
  deriving DecidableEq

/-- jsonLoader.py lines 17-42: if the path is not a directory, print an
error and return the empty list (the run is NOT aborted); otherwise return
the parsed records. -/
def parse_json_directory_to_dicts (isDir : Bool) (parsed : List Problem) :
    List Problem :=
  if isDir then parsed else []

/-- main.py lines 37-49 plus the loop: missing command-line argument is a
fatal usage error (`sys.exit(1)`, lines 39-42); otherwise the directory is
loaded and every loaded problem is processed.  `world i` is the external
behaviour for the i-th loaded problem. -/
def mainRun (argv : List String) (isDir : Bool) (parsed : List Problem)
    (world : Nat → Env) : ExitStatus × List ProblemResult :=
  if argv.length < 2 then
    (ExitStatus.failure 1, [])
  else
    let problems := parse_json_directory_to_dicts isDir parsed
    (ExitStatus.success,
     (runAll (problems.enum.map (fun ip => (ip.2, world ip.1)))).1)

/- ------------------------------------------------------------------ -/
/- Helper lemmas about the Python string primitives.                   -/
/- ------------------------------------------------------------------ -/

theorem dropWhile_all_eq_nil (q : Char → Bool) :
    ∀ l : List Char, l.all q = true → l.dropWhile q = [] := by
  intro l
  induction l with
  | nil => intro _; rfl
  | cons a t ih =>
    intro h
    simp only [List.all_cons, Bool.and_eq_true] at h
    rw [List.dropWhile_cons, if_pos h.1]
    exact ih h.2

theorem pyStrip_of_all_space (s : String) (h : s.toList.all isPySpace = true) :
    pyStrip s = "" := by
  unfold pyStrip pyStripList
  rw [dropWhile_all_eq_nil isPySpace s.toList h]
  rfl

/- ------------------------------------------------------------------ -/
/- Claim theorems.                                                     -/
/- ------------------------------------------------------------------ -/

/-- C1: whenever the executed solution's standard error is non-empty after
trimming, the recorded outcome is `FAIL_RUNTIME_ERROR`, for every standard
output and every (present or absent) expected output. -/
theorem nonempty_stderr_runtime_error (stdoutRaw stderrRaw : String)
    (expected : Option String) (h : pyStrip stderrRaw ≠ "") :
    classify stdoutRaw stderrRaw expected = Outcome.FAIL_RUNTIME_ERROR := by
  unfold classify
  rw [if_pos h]

/-- Witness for C1: a run whose stdout equals the expected text exactly but
which also wrote to stderr is classified `FAIL_RUNTIME_ERROR`. -/
theorem nonempty_stderr_runtime_error_witness :
    classify "POSITIVE" "RuntimeError: boom" (some "POSITIVE") =
      Outcome.FAIL_RUNTIME_ERROR :=
  nonempty_stderr_runtime_error "POSITIVE" "RuntimeError: boom" (some "POSITIVE")
    (by decide)

/-- C2 counterexample: a problem lacking `test_output` whose execution wrote
to standard error is recorded as `FAIL_RUNTIME_ERROR`, not
`SKIPPED_NO_EXPECTED` — so the outcome is not always `SKIPPED_NO_EXPECTED`. -/
theorem missing_expected_counterexample :
    problemBody (ExecEvent.completed "5" "ZeroDivisionError: division by zero") none =
      Outcome.FAIL_RUNTIME_ERROR ∧
    Outcome.FAIL_RUNTIME_ERROR ≠ Outcome.SKIPPED_NO_EXPECTED :=
  ⟨by decide, by decide⟩

/-- C2 (amended): for a problem lacking `test_output` the outcome is never
`PASS` and never `FAIL_MISMATCH`; and when execution completes with empty
(trimmed) standard error, the outcome is `SKIPPED_NO_EXPECTED`. -/
theorem missing_expected_skip (ev : ExecEvent) (stdoutRaw stderrRaw : String) :
    problemBody ev none ≠ Outcome.PASS ∧
    problemBody ev none ≠ Outcome.FAIL_MISMATCH ∧
    (pyStrip stderrRaw = "" →
      problemBody (ExecEvent.completed stdoutRaw stderrRaw) none =
        Outcome.SKIPPED_NO_EXPECTED) := by
  refine ⟨?_, ?_, ?_⟩
  · cases ev with
    | completed out err =>
      show classify out err none ≠ Outcome.PASS
      unfold classify
      split
      · exact fun hh => Outcome.noConfusion hh
      · exact fun hh => Outcome.noConfusion hh
    | ioError => exact fun hh => Outcome.noConfusion hh
    | timeoutExpired po => exact fun hh => Outcome.noConfusion hh
    | otherExc => exact fun hh => Outcome.noConfusion hh
  · cases ev with
    | completed out err =>
      show classify out err none ≠ Outcome.FAIL_MISMATCH
      unfold classify
      split
      · exact fun hh => Outcome.noConfusion hh
      · exact fun hh => Outcome.noConfusion hh
    | ioError => exact fun hh => Outcome.noConfusion hh
    | timeoutExpired po => exact fun hh => Outcome.noConfusion hh
    | otherExc => exact fun hh => Outcome.noConfusion hh
  · intro h
    show classify stdoutRaw stderrRaw none = Outcome.SKIPPED_NO_EXPECTED
    unfold classify
    rw [h, if_neg (by simp)]

/-- Witness for C2 (amended) at a concrete whitespace-only stderr. -/
theorem missing_expected_skip_witness :
    problemBody (ExecEvent.completed "hello" "  ") none ≠ Outcome.PASS ∧
    problemBody (ExecEvent.completed "hello" "  ") none ≠ Outcome.FAIL_MISMATCH ∧
    problemBody (ExecEvent.completed "hello" "  ") none = Outcome.SKIPPED_NO_EXPECTED := by
  have h := missing_expected_skip (ExecEvent.completed "hello" "  ") "hello" "  "
  exact ⟨h.1, h.2.1, h.2.2 (by decide)⟩

/-- C3: `validate_solution` returns true exactly when the two strings are
equal after stripping leading/trailing whitespace from each; it is
insensitive to leading/trailing whitespace but sensitive to internal
whitespace and case. -/
theorem validate_trim_equality :
    (∀ actual expected : String,
      validate_solution actual expected = true ↔ pyStrip actual = pyStrip expected) ∧
    validate_solution "5\n" "5" = true ∧
    validate_solution "5" " 5 " = true ∧
    validate_solution "5" "05" = false ∧
    validate_solution "a b" "a  b" = false ∧
    validate_solution "abc" "ABC" = false := by
  refine ⟨?_, by decide, by decide, by decide, by decide, by decide⟩
  intro a e
  unfold validate_solution
  exact beq_iff_eq

/-- C10: standard error is trimmed before the runtime-error check, so a
whitespace-only stderr is treated exactly like an empty one and never
produces `FAIL_RUNTIME_ERROR`. -/
theorem whitespace_stderr_like_empty (stdoutRaw stderrRaw : String)
    (expected : Option String) (h : stderrRaw.toList.all isPySpace = true) :
    classify stdoutRaw stderrRaw expected = classify stdoutRaw "" expected ∧
    classify stdoutRaw stderrRaw expected ≠ Outcome.FAIL_RUNTIME_ERROR := by
  have he : pyStrip stderrRaw = "" := pyStrip_of_all_space _ h
  have h0 : pyStrip "" = "" := rfl
  constructor
  · unfold classify
    rw [he, h0]
  · unfold classify
    rw [he, if_neg (by simp)]
    cases expected with
    | none => exact fun hh => Outcome.noConfusion hh
    | some e =>
      show (if validate_solution (pyStrip stdoutRaw) e = true then Outcome.PASS
            else Outcome.FAIL_MISMATCH) ≠ Outcome.FAIL_RUNTIME_ERROR
      split
      · exact fun hh => Outcome.noConfusion hh
      · exact fun hh => Outcome.noConfusion hh

/-- Witness for C10: stderr `" \n\t "` behaves like empty stderr and the
problem still passes validation. -/
theorem whitespace_stderr_like_empty_witness :
    classify "5" " \n\t " (some "5") = classify "5" "" (some "5") ∧
    classify "5" " \n\t " (some "5") ≠ Outcome.FAIL_RUNTIME_ERROR :=
  whitespace_stderr_like_empty "5" " \n\t " (some "5") (by decide)

/-- C6: the execution step never lets an exception escape — every possible
event of the try-block is converted by the handlers into a recorded outcome
(`Except.ok`, never `Except.error`); an `IOError` while persisting becomes a
skip, any other exception (e.g. a spawn failure) becomes a skip, and a
`TimeoutExpired` becomes the timeout outcome irrespective of whatever
partial standard output the expired process had produced (none of it is
reported). -/
theorem sandbox_captures_all_failures (ev : ExecEvent) (expected : Option String)
    (partOut : String) :
    handlersApplied (tryBlock ev expected) = Except.ok (problemBody ev expected) ∧
    problemBody (ExecEvent.timeoutExpired partOut) expected = Outcome.TIMED_OUT ∧
    problemBody ExecEvent.ioError expected = Outcome.SKIPPED_PERSISTENCE ∧
    problemBody ExecEvent.otherExc expected = Outcome.SKIPPED_UNEXPECTED := by
  refine ⟨?_, rfl, rfl, rfl⟩
  cases ev <;> rfl

theorem retryGo_spec (gen : Nat → Option String) :
    ∀ n attempt, 1 ≤ n →
      1 ≤ (retryGo gen attempt n).2.1 ∧
      (retryGo gen attempt n).2.1 ≤ n ∧
      (retryGo gen attempt n).2.2 = retry_delay * ((retryGo gen attempt n).2.1 - 1) := by
  intro n
  induction n with
  | zero => intro attempt h; exact absurd h (by omega)
  | succ m ih =>
    intro attempt _
    cases hg : gen attempt with
    | some r => simp [retryGo, hg]
    | none =>
      by_cases hm : m = 0
      · subst hm
        simp [retryGo, hg]
      · have ihm := ih (attempt + 1) (Nat.one_le_iff_ne_zero.mpr hm)
        simp only [retryGo, hg, if_neg hm]
        refine ⟨by omega, by omega, ?_⟩
        simp only [retry_delay] at ihm ⊢
        omega

/-- C4: the retry controller makes between 1 and `max_retries` = 3 attempts;
the total time slept is `retry_delay` (30 s) per non-final attempt — i.e.
the delay sits only between two attempts, never after the last one; when
all 3 attempts fail the problem is recorded `SKIPPED_EXHAUSTED` with no
extraction, no persistence, no execution and no validation (both result
payloads are `none` and the outcome is independent of the execution
environment), and the orchestrator still processes the remaining problems. -/
theorem retry_controller_spec (p : Problem) (env : Env) :
    1 ≤ (runProblem p env).attempts ∧
    (runProblem p env).attempts ≤ max_retries ∧
    (runProblem p env).retrySleepSecs =
      retry_delay * ((runProblem p env).attempts - 1) ∧
    ((env.gen 0 = none ∧ env.gen 1 = none ∧ env.gen 2 = none) →
      runProblem p env =
        ⟨Outcome.SKIPPED_EXHAUSTED, false, max_retries, 2 * retry_delay, none, none⟩) ∧
    (∀ rest, (runAll ((p, env) :: rest)).1 = runProblem p env :: (runAll rest).1) := by
  have hs : 1 ≤ (runRetries env.gen).2.1 ∧ (runRetries env.gen).2.1 ≤ max_retries ∧
      (runRetries env.gen).2.2 = retry_delay * ((runRetries env.gen).2.1 - 1) :=
    retryGo_spec env.gen max_retries 0 (by decide)
  have hfields : (runProblem p env).attempts = (runRetries env.gen).2.1 ∧
      (runProblem p env).retrySleepSecs = (runRetries env.gen).2.2 := by
    rcases hr : runRetries env.gen with ⟨resp, att, slept⟩
    cases resp <;> simp [runProblem, hr]
  refine ⟨?_, ?_, ?_, ?_, ?_⟩
  · rw [hfields.1]; exact hs.1
  · rw [hfields.1]; exact hs.2.1
  · rw [hfields.1, hfields.2]; exact hs.2.2
  · rintro ⟨h0, h1, h2⟩
    have hrr : runRetries env.gen = (none, 3, 2 * retry_delay) := by
      show retryGo env.gen 0 3 = (none, 3, 2 * retry_delay)
      simp [retryGo, h0, h1, h2]
      omega
    unfold runProblem
    rw [hrr]
    rfl
  · intro rest
    rfl

/-- Witness for C4: a generation service that always fails leads to the
exhausted skip after 3 attempts and 60 s of inter-attempt sleeping. -/
theorem retry_controller_spec_witness :
    runProblem ⟨some "q", none, none⟩ ⟨fun _ => none, ExecEvent.otherExc⟩ =
      ⟨Outcome.SKIPPED_EXHAUSTED, false, max_retries, 2 * retry_delay, none, none⟩ ∧
    (runProblem ⟨some "q", none, none⟩ ⟨fun _ => none, ExecEvent.otherExc⟩).attempts ≤
      max_retries := by
  have h := retry_controller_spec ⟨some "q", none, none⟩ ⟨fun _ => none, ExecEvent.otherExc⟩
  exact ⟨h.2.2.2.1 ⟨rfl, rfl, rfl⟩, h.2.1⟩

/-- C7: every problem fed to the orchestrator yields exactly one recorded
terminal result, and the results of the remaining problems are exactly what
they would be had the first problem not existed — no outcome of one problem
(exhaustion, persistence error, runtime error, timeout, other exception)
aborts or alters the processing of subsequent problems. -/
theorem pipeline_isolation :
    (∀ ps : List (Problem × Env), ((runAll ps).1).length = ps.length) ∧
    (∀ (pe : Problem × Env) (rest : List (Problem × Env)),
      ((runAll (pe :: rest)).1).tail = (runAll rest).1) := by
  constructor
  · intro ps
    induction ps with
    | nil => rfl
    | cons pe rest ih => simp [runAll, ih]
  · intro pe rest
    rfl

/-- Whether the retry stage obtained a response for this problem. -/
def generationSucceeds (env : Env) : Bool :=
  (runRetries env.gen).1.isSome

theorem runProblem_generated (p : Problem) (env : Env) :
    (runProblem p env).generated = generationSucceeds env := by
  unfold generationSucceeds
  rcases hr : runRetries env.gen with ⟨resp, att, slept⟩
  cases resp <;> simp [runProblem, hr]

theorem runAll_sleep_eq : ∀ ps : List (Problem × Env),
    (runAll ps).2 = inter_problem_delay *
      ((ps.dropLast.filter fun pe => generationSucceeds pe.2).length) := by
  intro ps
  induction ps with
  | nil => rfl
  | cons pe rest ih =>
    cases rest with
    | nil => simp [runAll]
    | cons qe rest2 =>
      have hg := runProblem_generated pe.1 pe.2
      have lhs : (runAll (pe :: qe :: rest2)).2 =
          (if generationSucceeds pe.2 then inter_problem_delay else 0)
            + (runAll (qe :: rest2)).2 := by
        rw [← hg]
        simp [runAll]
      rw [lhs, ih, List.dropLast_cons₂]
      by_cases hgen : generationSucceeds pe.2 = true
      · simp only [List.filter_cons, if_pos hgen, List.length_cons, inter_problem_delay]
        omega
      · simp only [List.filter_cons, if_neg hgen, inter_problem_delay]
        omega

/-- C5 counterexample: a two-problem run whose first problem exhausts
generation performs 0 seconds of inter-problem sleeping, not the
`(N-1) * 20 = 20` the claim requires — the `continue` taken on generation
exhaustion skips the unconditional-looking inter-problem delay. -/
theorem inter_problem_delay_counterexample :
    (runAll [(⟨some "q1", none, none⟩, ⟨fun _ => none, ExecEvent.otherExc⟩),
             (⟨some "q2", none, none⟩,
              ⟨fun _ => some "print(1)", ExecEvent.completed "1" ""⟩)]).2 = 0 ∧
    ([(⟨some "q1", none, none⟩, ⟨fun _ => none, ExecEvent.otherExc⟩),
      (⟨some "q2", none, none⟩,
       ⟨fun _ => some "print(1)", ExecEvent.completed "1" ""⟩)] :
        List (Problem × Env)).length = 2 ∧
    (0 : Nat) ≠ inter_problem_delay * (2 - 1) :=
  ⟨rfl, rfl, by decide⟩

/-- C5 (amended): the orchestrator's total inter-problem sleeping equals
`inter_problem_delay` (20 s) for each problem except the last whose
generation stage succeeded; problems skipped on generation exhaustion get
no trailing delay.  In particular the total is at most `(N-1) * 20`. -/
theorem inter_problem_delay_total (ps : List (Problem × Env)) :
    (runAll ps).2 = inter_problem_delay *
      ((ps.dropLast.filter fun pe => generationSucceeds pe.2).length) ∧
    (runAll ps).2 ≤ inter_problem_delay * (ps.length - 1) := by
  refine ⟨runAll_sleep_eq ps, ?_⟩
  rw [runAll_sleep_eq ps]
  have h1 : ((ps.dropLast.filter fun pe => generationSucceeds pe.2).length) ≤
      ps.dropLast.length := List.length_filter_le _ _
  have h2 : ps.dropLast.length = ps.length - 1 := List.length_dropLast ps
  simp only [inter_problem_delay] at h1 h2 ⊢
  omega

/-- C8 counterexample: with a path that is not a valid directory the run is
NOT terminated: it completes with success status, having processed zero
problems — the loader prints a message and returns an empty list instead of
aborting. -/
theorem invalid_path_not_fatal :
    mainRun ["main.py", "/no-such-dir"] false [⟨some "q", none, none⟩]
        (fun _ => ⟨fun _ => some "print(1)", ExecEvent.completed "1" ""⟩) =
      (ExitStatus.success, []) ∧
    ExitStatus.success ≠ ExitStatus.failure 1 :=
  ⟨rfl, by decide⟩

/-- C8 (amended): a missing command-line argument is fatal — the run exits
immediately with status 1 and processes nothing; an invalid input path,
however, is not fatal: the loader yields an empty problem list and the run
completes normally (success status) with zero problems processed. -/
theorem invalid_path_handling (argv : List String) (isDir : Bool)
    (parsed : List Problem) (world : Nat → Env) :
    (argv.length < 2 → mainRun argv isDir parsed world = (ExitStatus.failure 1, [])) ∧
    (2 ≤ argv.length → isDir = false →
      mainRun argv isDir parsed world = (ExitStatus.success, [])) := by
  constructor
  · intro h
    unfold mainRun
    rw [if_pos h]
  · intro h hdir
    unfold mainRun
    rw [if_neg (by omega)]
    subst hdir
    rfl

/- ------------------------------------------------------------------ -/
/- C9: the code extractor.                                             -/
/- ------------------------------------------------------------------ -/

/-- The fence character U+0060. -/
def backtick : Char := '\u0060'

/-- Decides whether a character list contains three consecutive backticks —
i.e. whether any fence marker (opening or closing) is still present. -/
def hasTriple : List Char → Bool
  | a :: b :: c :: rest =>
    (a == backtick && b == backtick && c == backtick) || hasTriple (b :: c :: rest)
  | _ => false

/-- The backtick-fence removal pass of `clean_code`, i.e. `pyRepAux`
specialised to pattern three backticks and empty replacement. -/
def removeTicks (fuel : Nat) (l : List Char) : List Char :=
  pyRepAux backtick [backtick, backtick] [] fuel l

theorem hasTriple_cons_of (a : Char) (t : List Char) (h : hasTriple t = true) :
    hasTriple (a :: t) = true := by
  rcases t with _ | ⟨b, t2⟩
  · exact absurd h (by decide)
  · rcases t2 with _ | ⟨c, r⟩
    · have e : hasTriple [b] = false := rfl
      rw [e] at h
      exact Bool.noConfusion h
    · have e : hasTriple (a :: b :: c :: r) =
          ((a == backtick && b == backtick && c == backtick) || hasTriple (b :: c :: r)) := rfl
      rw [e, h, Bool.or_true]

theorem hasTriple_decomp : ∀ l : List Char, hasTriple l = true →
    ∃ u v, l = u ++ backtick :: backtick :: backtick :: v := by
  intro l
  induction l with
  | nil => intro h; exact absurd h (by decide)
  | cons a t ih =>
    intro h
    rcases t with _ | ⟨b, t2⟩
    · have e : hasTriple [a] = false := rfl
      rw [e] at h
      exact Bool.noConfusion h
    · rcases t2 with _ | ⟨c, r⟩
      · have e : hasTriple [a, b] = false := rfl
        rw [e] at h
        exact Bool.noConfusion h
      · have e : hasTriple (a :: b :: c :: r) =
            ((a == backtick && b == backtick && c == backtick) || hasTriple (b :: c :: r)) := rfl
        rw [e] at h
        simp only [Bool.or_eq_true, Bool.and_eq_true, beq_iff_eq] at h
        rcases h with ⟨⟨h1, h2⟩, h3⟩ | h2
        · subst h1
          subst h2
          subst h3
          exact ⟨[], r, rfl⟩
        · rcases ih h2 with ⟨u, v, huv⟩
          exact ⟨a :: u, v, by rw [huv, List.cons_append]⟩

theorem hasTriple_of_decomp : ∀ u v : List Char,
    hasTriple (u ++ backtick :: backtick :: backtick :: v) = true := by
  intro u v
  induction u with
  | nil =>
    rw [List.nil_append]
    have e : hasTriple (backtick :: backtick :: backtick :: v) =
        ((backtick == backtick && backtick == backtick && backtick == backtick) ||
          hasTriple (backtick :: backtick :: v)) := rfl
    rw [e]
    simp
  | cons a u2 ih =>
    rw [List.cons_append]
    exact hasTriple_cons_of a _ ih

theorem dropWhile_suffix_decomp (q : Char → Bool) :
    ∀ l : List Char, ∃ w, l = w ++ l.dropWhile q := by
  intro l
  induction l with
  | nil => exact ⟨[], rfl⟩
  | cons a t ih =>
    by_cases h : q a = true
    · rcases ih with ⟨w, hw⟩
      refine ⟨a :: w, ?_⟩
      rw [List.dropWhile_cons, if_pos h, List.cons_append, ← hw]
    · refine ⟨[], ?_⟩
      rw [List.dropWhile_cons, if_neg h]
      rfl

theorem hasTriple_dropWhile (q : Char → Bool) (l : List Char)
    (h : hasTriple (l.dropWhile q) = true) : hasTriple l = true := by
  rcases dropWhile_suffix_decomp q l with ⟨w, hw⟩
  rcases hasTriple_decomp _ h with ⟨u, v, huv⟩
  rw [hw, huv, ← List.append_assoc]
  exact hasTriple_of_decomp (w ++ u) v

theorem hasTriple_reverse (l : List Char)
    (h : hasTriple l.reverse = true) : hasTriple l = true := by
  rcases hasTriple_decomp _ h with ⟨u, v, huv⟩
  have hl : l = v.reverse ++ backtick :: backtick :: backtick :: u.reverse := by
    have h2 := congrArg List.reverse huv
    rw [List.reverse_reverse] at h2
    rw [h2]
    simp [List.reverse_append]
  rw [hl]
  exact hasTriple_of_decomp _ _

theorem hasTriple_pyStripList (l : List Char)
    (h : hasTriple (pyStripList l) = true) : hasTriple l = true := by
  unfold pyStripList at h
  have h1 := hasTriple_reverse _ h
  have h2 := hasTriple_dropWhile _ _ h1
  have h3 := hasTriple_reverse _ h2
  exact hasTriple_dropWhile _ _ h3

theorem triple_isPrefixOf_elim (c : Char) (cs : List Char)
    (h : (backtick :: backtick :: backtick :: []).isPrefixOf (c :: cs) = true) :
    c = backtick ∧ ∃ t, cs = backtick :: backtick :: t := by
  rcases cs with _ | ⟨d, cs2⟩
  · simp [List.isPrefixOf] at h
  · rcases cs2 with _ | ⟨e2, t⟩
    · simp [List.isPrefixOf] at h
    · simp only [List.isPrefixOf, Bool.and_eq_true, Bool.and_true, beq_iff_eq] at h
      obtain ⟨h1, h2, h3⟩ := h
      exact ⟨h1.symm, t, by rw [← h2, ← h3]⟩

theorem triple_isPrefixOf_intro (t : List Char) :
    (backtick :: backtick :: backtick :: []).isPrefixOf
      (backtick :: backtick :: backtick :: t) = true := by
  simp [List.isPrefixOf]

theorem removeTicks_head_backtick : ∀ (fuel : Nat) (l : List Char),
    (removeTicks fuel l).head? = some backtick → l.head? = some backtick := by
  intro fuel
  cases fuel with
  | zero => intro l h; exact h
  | succ m =>
    intro l
    rcases l with _ | ⟨c, cs⟩
    · intro h
      have e : removeTicks (m + 1) ([] : List Char) = [] := rfl
      rw [e] at h
      exact Option.noConfusion h
    · intro h
      by_cases hp : (backtick :: backtick :: backtick :: []).isPrefixOf (c :: cs) = true
      · rcases triple_isPrefixOf_elim c cs hp with ⟨hc, _⟩
        rw [hc]
        rfl
      · have e : removeTicks (m + 1) (c :: cs) = c :: removeTicks m cs := by
          rw [show removeTicks (m + 1) (c :: cs) =
              (if (backtick :: backtick :: backtick :: []).isPrefixOf (c :: cs) = true then
                removeTicks m (cs.drop 2)
              else c :: removeTicks m cs) from rfl]
          rw [if_neg hp]
        rw [e] at h
        simp only [List.head?_cons] at h ⊢
        exact h

theorem removeTicks_two_backticks : ∀ (fuel : Nat) (l r : List Char),
    removeTicks fuel l = backtick :: backtick :: r →
    ∃ t, l = backtick :: backtick :: t := by
  intro fuel
  cases fuel with
  | zero => intro l r h; exact ⟨r, h⟩
  | succ m =>
    intro l r
    rcases l with _ | ⟨c, cs⟩
    · intro h
      have e : removeTicks (m + 1) ([] : List Char) = [] := rfl
      rw [e] at h
      exact List.noConfusion h
    · intro h
      by_cases hp : (backtick :: backtick :: backtick :: []).isPrefixOf (c :: cs) = true
      · rcases triple_isPrefixOf_elim c cs hp with ⟨hc, t, ht⟩
        exact ⟨backtick :: t, by rw [hc, ht]⟩
      · have e : removeTicks (m + 1) (c :: cs) = c :: removeTicks m cs := by
          rw [show removeTicks (m + 1) (c :: cs) =
              (if (backtick :: backtick :: backtick :: []).isPrefixOf (c :: cs) = true then
                removeTicks m (cs.drop 2)
              else c :: removeTicks m cs) from rfl]
          rw [if_neg hp]
        rw [e] at h
        injection h with h1 h2
        have hhead : (removeTicks m cs).head? = some backtick := by
          rw [h2]
          rfl
        have hcs := removeTicks_head_backtick m cs hhead
        rcases cs with _ | ⟨d, cs2⟩
        · exact Option.noConfusion hcs
        · simp only [List.head?_cons] at hcs
          injection hcs with hd
          exact ⟨cs2, by rw [h1, hd]⟩

theorem hasTriple_cons_elim (c : Char) (R : List Char)
    (h : hasTriple (c :: R) = true) :
    (c = backtick ∧ ∃ r, R = backtick :: backtick :: r) ∨ hasTriple R = true := by
  rcases R with _ | ⟨b, R2⟩
  · have e : hasTriple [c] = false := rfl
    rw [e] at h
    exact Bool.noConfusion h
  · rcases R2 with _ | ⟨d, r⟩
    · have e : hasTriple [c, b] = false := rfl
      rw [e] at h
      exact Bool.noConfusion h
    · have e : hasTriple (c :: b :: d :: r) =
          ((c == backtick && b == backtick && d == backtick) || hasTriple (b :: d :: r)) := rfl
      rw [e] at h
      simp only [Bool.or_eq_true, Bool.and_eq_true, beq_iff_eq] at h
      rcases h with ⟨⟨h1, h2⟩, h3⟩ | h4
      · exact Or.inl ⟨h1, r, by rw [h2, h3]⟩
      · exact Or.inr h4

theorem removeTicks_no_triple : ∀ (fuel : Nat) (l : List Char), l.length ≤ fuel →
    hasTriple (removeTicks fuel l) = false := by
  intro fuel
  induction fuel with
  | zero =>
    intro l hl
    have hnil : l = [] := List.eq_nil_of_length_eq_zero (Nat.le_zero.mp hl)
    subst hnil
    rfl
  | succ m ih =>
    intro l hl
    rcases l with _ | ⟨c, cs⟩
    · rfl
    · by_cases hp : (backtick :: backtick :: backtick :: []).isPrefixOf (c :: cs) = true
      · have e : removeTicks (m + 1) (c :: cs) = removeTicks m (cs.drop 2) := by
          rw [show removeTicks (m + 1) (c :: cs) =
              (if (backtick :: backtick :: backtick :: []).isPrefixOf (c :: cs) = true then
                removeTicks m (cs.drop 2)
              else c :: removeTicks m cs) from rfl]
          rw [if_pos hp]
        rw [e]
        refine ih (cs.drop 2) ?_
        have hd : (cs.drop 2).length = cs.length - 2 := List.length_drop 2 cs
        simp only [List.length_cons] at hl
        omega
      · have e : removeTicks (m + 1) (c :: cs) = c :: removeTicks m cs := by
          rw [show removeTicks (m + 1) (c :: cs) =
              (if (backtick :: backtick :: backtick :: []).isPrefixOf (c :: cs) = true then
                removeTicks m (cs.drop 2)
              else c :: removeTicks m cs) from rfl]
          rw [if_neg hp]
        rw [e]
        have ihc : hasTriple (removeTicks m cs) = false := by
          refine ih cs ?_
          simp only [List.length_cons] at hl
          omega
        cases hR : hasTriple (c :: removeTicks m cs) with
        | false => rfl
        | true =>
          exfalso
          rcases hasTriple_cons_elim c _ hR with ⟨hc, r, hr⟩ | htail
          · rcases removeTicks_two_backticks m cs r hr with ⟨t, ht⟩
            apply hp
            rw [hc, ht]
            exact triple_isPrefixOf_intro t
          · rw [ihc] at htail
            exact Bool.noConfusion htail

theorem dropWhile_head_not (q : Char → Bool) :
    ∀ (l : List Char) (c : Char), (l.dropWhile q).head? = some c → q c = false := by
  intro l
  induction l with
  | nil => intro c h; exact Option.noConfusion h
  | cons a t ih =>
    intro c h
    rw [List.dropWhile_cons] at h
    by_cases ha : q a = true
    · rw [if_pos ha] at h
      exact ih c h
    · rw [if_neg ha] at h
      simp only [List.head?_cons] at h
      injection h with h1
      rw [← h1]
      exact Bool.eq_false_iff.mpr ha

theorem pyStripList_head (l : List Char) (c : Char)
    (h : (pyStripList l).head? = some c) : isPySpace c = false := by
  unfold pyStripList at h
  rcases dropWhile_suffix_decomp isPySpace (l.dropWhile isPySpace).reverse with ⟨w, hw⟩
  cases hY : ((l.dropWhile isPySpace).reverse.dropWhile isPySpace).reverse with
  | nil =>
    rw [hY] at h
    exact Option.noConfusion h
  | cons d rest =>
    rw [hY] at h
    simp only [List.head?_cons] at h
    injection h with hdc
    have hm : (l.dropWhile isPySpace).head? = some d := by
      have h2 := congrArg List.reverse hw
      rw [List.reverse_reverse, List.reverse_append] at h2
      rw [hY] at h2
      rw [h2]
      rfl
    have hq := dropWhile_head_not isPySpace l d hm
    rw [← hdc]
    exact hq

theorem pyStripList_getLast (l : List Char) (c : Char)
    (h : (pyStripList l).getLast? = some c) : isPySpace c = false := by
  unfold pyStripList at h
  rw [List.getLast?_reverse] at h
  exact dropWhile_head_not isPySpace _ c h

/-- C9: the code extractor is a total function on raw response text whose
output carries no fence marker anywhere (no three consecutive backticks
survive, hence neither an opening `fence+language` marker nor a bare closing
fence) and is stripped of leading and trailing whitespace.  Determinism and
non-failure are inherent: `clean_code` is a total function. -/
theorem clean_code_extractor (s : String) :
    hasTriple (clean_code s).toList = false ∧
    ((clean_code s).toList.head?.all fun c => !isPySpace c) = true ∧
    ((clean_code s).toList.getLast?.all fun c => !isPySpace c) = true := by
  have e : (clean_code s).toList =
      pyStripList (removeTicks
        (pyReplace (pyStrip s) "```python" "").toList.length
        (pyReplace (pyStrip s) "```python" "").toList) := rfl
  refine ⟨?_, ?_, ?_⟩
  · rw [e]
    cases hh : hasTriple (pyStripList (removeTicks
        (pyReplace (pyStrip s) "```python" "").toList.length
        (pyReplace (pyStrip s) "```python" "").toList)) with
    | false => rfl
    | true =>
      exfalso
      have h1 := hasTriple_pyStripList _ hh
      rw [removeTicks_no_triple _ _ (Nat.le_refl _)] at h1
      exact Bool.noConfusion h1
  · rw [e]
    cases hh : (pyStripList (removeTicks
        (pyReplace (pyStrip s) "```python" "").toList.length
        (pyReplace (pyStrip s) "```python" "").toList)).head? with
    | none => rfl
    | some d =>
      have hd := pyStripList_head _ d hh
      show (!isPySpace d) = true
      rw [hd]
      rfl
  · rw [e]
    cases hh : (pyStripList (removeTicks
        (pyReplace (pyStrip s) "```python" "").toList.length
        (pyReplace (pyStrip s) "```python" "").toList)).getLast? with
    | none => rfl
    | some d =>
      have hd := pyStripList_getLast _ d hh
      show (!isPySpace d) = true
      rw [hd]
      rfl

/-- Witness for C8 (amended) at concrete inputs. -/
theorem invalid_path_handling_witness :
    mainRun ["main.py"] true [] (fun _ => ⟨fun _ => none, ExecEvent.otherExc⟩) =
      (ExitStatus.failure 1, []) ∧
    mainRun ["main.py", "/missing"] false [⟨some "q", none, none⟩]
        (fun _ => ⟨fun _ => none, ExecEvent.otherExc⟩) =
      (ExitStatus.success, []) :=
  ⟨(invalid_path_handling ["main.py"] true []
      (fun _ => ⟨fun _ => none, ExecEvent.otherExc⟩)).1 (by decide),
   (invalid_path_handling ["main.py", "/missing"] false [⟨some "q", none, none⟩]
      (fun _ => ⟨fun _ => none, ExecEvent.otherExc⟩)).2 (by decide) rfl⟩

end Interview
